import Mathlib

/-!
Verification of the intrusion-detection log scanner.

This file gives a shallow embedding of the program's components:
timestamp conversion (`toSeconds`: a model of `strptime` with format
"%B %d %H:%M:%S" followed by `mktime` for a fixed year), per-line field
extraction (`parseFields`, modelling the reuse of the `std::string`
variables across loop iterations: a failed extraction leaves the
variable's previous value in place), the login-frequency rule
(`frequencyHacking`), the per-line processor (`processLine`,
`processLogs`), the URL splitter (`breakDownURL`, returning `none` where
the C++ `std::string::substr` would throw `std::out_of_range`), and the
download setup (`setupDownload`, `mainConnect`).
-/

/-- Accumulating tokenizer: `acc` holds the reversed characters of the
token being read. -/
def wordsAux : List Char → List Char → List String
  | [], acc => if acc.isEmpty then [] else [String.mk acc.reverse]
  | c :: cs, acc =>
    if c.isWhitespace then
      if acc.isEmpty then wordsAux cs [] else String.mk acc.reverse :: wordsAux cs []
    else wordsAux cs (c :: acc)

/-- Tokens of a line as extracted by repeated `operator>>` on an
`istringstream`: maximal runs of non-whitespace characters. -/
def words (s : String) : List String :=
  wordsAux s.data []

/-- The string variables `month, day, time, userID, ip` of `processLogs`.
They are declared once, outside the line loop, so a failed extraction
(too few fields on the line) leaves the previous line's value in place. -/
structure Fields where
  month : String := ""
  day : String := ""
  time : String := ""
  userID : String := ""
  ip : String := ""
deriving DecidableEq, Repr

/-- One round of `istringstream(line) >> month >> day >> time >> dummy
>> dummy >> dummy >> dummy >> dummy >> userID >> dummy >> ip`.  A
`std::string` extraction clears the target only when its sentry
succeeds, so a missing field keeps the value it had before (from the
previous line); positions: month 0, day 1, time 2, userID 8, ip 10. -/
def parseFields (prev : Fields) (line : String) : Fields :=
  let ts := words line
  { month := ts.getD 0 prev.month
    day := ts.getD 1 prev.day
    time := ts.getD 2 prev.time
    userID := ts.getD 8 prev.userID
    ip := ts.getD 10 prev.ip }

/-- The fields of `struct tm` that the program reads or writes
(designated initialization zeroes every field except `tm_year`). -/
structure Tm where
  mon : Nat := 0
  mday : Nat := 0
  hour : Nat := 0
  min : Nat := 0
  sec : Nat := 0
deriving DecidableEq, Repr

/-- Skip leading whitespace, as the C library does for whitespace in a
`strptime` format and before a numeric directive. -/
def skipWs : List Char → List Char
  | [] => []
  | c :: cs => if c.isWhitespace then skipWs cs else c :: cs

/-- Value of a decimal digit character, if it is one. -/
def digitVal (c : Char) : Option Nat :=
  if '0' ≤ c ∧ c ≤ '9' then some (c.toNat - 48) else none

/-- Continuation of the digit loop of glibc `strptime`'s `get_number`:
after the first digit, keep consuming while width remains, the
accumulated value times ten is still within the upper bound, and the
next character is a digit. -/
def getNumLoop (hi : Nat) : Nat → Nat → List Char → Nat × List Char
  | 0, val, cs => (val, cs)
  | _ + 1, val, [] => (val, [])
  | n + 1, val, c :: rest =>
    if val * 10 ≤ hi then
      match digitVal c with
      | some d => getNumLoop hi n (val * 10 + d) rest
      | none => (val, c :: rest)
    else (val, c :: rest)

/-- Model of glibc `strptime`'s `get_number(lo, hi, width)`: skip
whitespace, require at least one digit, consume further digits per
`getNumLoop`, and require the final value to lie in `[lo, hi]`. -/
def getNumber (lo hi width : Nat) (cs : List Char) : Option (Nat × List Char) :=
  match skipWs cs with
  | [] => none
  | c :: rest =>
    match digitVal c with
    | none => none
    | some d =>
      let vr := getNumLoop hi (width - 1) d rest
      if lo ≤ vr.1 ∧ vr.1 ≤ hi then some vr else none

/-- ASCII lower-casing, as used by the case-insensitive month-name
comparison of `strptime`. -/
def lowerChar (c : Char) : Char :=
  if 'A' ≤ c ∧ c ≤ 'Z' then Char.ofNat (c.toNat + 32) else c

/-- Case-insensitively match a pattern as a prefix of the input and
return the rest of the input. -/
def ciPrefixDrop : List Char → List Char → Option (List Char)
  | [], cs => some cs
  | _ :: _, [] => none
  | p :: ps, c :: cs =>
    if lowerChar p = lowerChar c then ciPrefixDrop ps cs else none

/-- Month names with their abbreviations, in month order. -/
def monthNames : List (String × String) :=
  [("January", "Jan"), ("February", "Feb"), ("March", "Mar"),
   ("April", "Apr"), ("May", "May"), ("June", "Jun"),
   ("July", "Jul"), ("August", "Aug"), ("September", "Sep"),
   ("October", "Oct"), ("November", "Nov"), ("December", "Dec")]

/-- Walk the month table: for each month try the full name, then the
abbreviation, as glibc `strptime`'s `%B` does. -/
def matchMonthAux (cs : List Char) : Nat → List (String × String) → Option (Nat × List Char)
  | _, [] => none
  | idx, (full, abbr) :: rest =>
    match ciPrefixDrop full.data cs with
    | some r => some (idx, r)
    | none =>
      match ciPrefixDrop abbr.data cs with
      | some r => some (idx, r)
      | none => matchMonthAux cs (idx + 1) rest

/-- Match a month name (`%B`), returning its zero-based index. -/
def matchMonth (cs : List Char) : Option (Nat × List Char) :=
  matchMonthAux cs 0 monthNames

/-- Match one literal character of the format exactly. -/
def matchLit (c : Char) : List Char → Option (List Char)
  | [] => none
  | x :: xs => if x = c then some xs else none

/-- Model of `strptime(timestamp, "%B %d %H:%M:%S", &tstamp)` on a
zero-initialized `tm`: directives run left to right, each successful
directive stores its value, and the first failing directive stops the
parse leaving later fields at their defaults.  The `Bool` records
whether the whole format matched. -/
def strptimeRun (s : String) : Tm × Bool :=
  match matchMonth s.data with
  | none => ({}, false)
  | some (mon, r1) =>
    match getNumber 1 31 2 (skipWs r1) with
    | none => ({ mon := mon }, false)
    | some (mday, r2) =>
      match getNumber 0 23 2 (skipWs r2) with
      | none => ({ mon := mon, mday := mday }, false)
      | some (hour, r3) =>
        match matchLit ':' r3 with
        | none => ({ mon := mon, mday := mday, hour := hour }, false)
        | some r4 =>
          match getNumber 0 59 2 r4 with
          | none => ({ mon := mon, mday := mday, hour := hour }, false)
          | some (mi, r5) =>
            match matchLit ':' r5 with
            | none => ({ mon := mon, mday := mday, hour := hour, min := mi }, false)
            | some r6 =>
              match getNumber 0 61 2 r6 with
              | none => ({ mon := mon, mday := mday, hour := hour, min := mi }, false)
              | some (sec, _) =>
                ({ mon := mon, mday := mday, hour := hour, min := mi, sec := sec }, true)

/-- The timestamp parse, demanding that every directive of the format
"%B %d %H:%M:%S" matched. -/
def parseTimestampFull (s : String) : Option Tm :=
  let r := strptimeRun s
  if r.2 = true then some r.1 else none

/-- Gregorian leap-year test. -/
def isLeap (y : Nat) : Bool := y % 4 = 0 ∧ (y % 100 ≠ 0 ∨ y % 400 = 0)

/-- Length of a zero-based month. -/
def monthLen (leap : Bool) : Nat → Nat
  | 1 => if leap then 29 else 28
  | 3 => 30
  | 5 => 30
  | 8 => 30
  | 10 => 30
  | _ => 31

/-- Days of the year before a zero-based month begins. -/
def monthOff (leap : Bool) (m : Nat) : Nat :=
  (match m with
   | 0 => 0 | 1 => 31 | 2 => 59 | 3 => 90 | 4 => 120 | 5 => 151
   | 6 => 181 | 7 => 212 | 8 => 243 | 9 => 273 | 10 => 304 | _ => 334)
  + (if leap ∧ 2 ≤ m then 1 else 0)

/-- Number of leap years in `[1, n]`. -/
def leapCount (n : Nat) : Nat := n / 4 - n / 100 + n / 400

/-- Days from 1970-01-01 to January 1 of the given year (year ≥ 1970). -/
def daysToYear (y : Nat) : Nat :=
  365 * (y - 1970) + (leapCount (y - 1) - leapCount 1969)

/-- Seconds from the start of the year to the given broken-down time,
with `mday = 0` (an unparsed day) denoting the day before January 1,
exactly as `mktime` normalizes it. -/
def secondsIntoYearG (leap : Bool) (t : Tm) : Int :=
  ((monthOff leap t.mon : Int) + (t.mday : Int) - 1) * 86400
    + (t.hour : Int) * 3600 + (t.min : Int) * 60 + (t.sec : Int)

/-- Model of `mktime` on the program's `tm` values (year ≥ 1970,
`tm_isdst = 0`; the constant timezone offset is taken as zero, which
affects neither ordering nor differences). -/
def mktimeModel (year : Nat) (t : Tm) : Int :=
  86400 * (daysToYear year : Int) + secondsIntoYearG (isLeap year) t

/-- Embedding of `toSeconds(timestamp, year)`: the program ignores the
return value of `strptime`, so a parse failure silently uses whatever
fields were filled in before the failure, and `mktime` is applied to
the result.  Every call in the program uses the default `year = 2021`. -/
def toSeconds (timestamp : String) (year : Nat) : Int :=
  mktimeModel year (strptimeRun timestamp).1


/-- Embedding of `frequencyHacking`: a violation when the user is not
authorized, has more than 3 recorded logins, and the last login is at
most 20 seconds after the login 3 positions before it. -/
def frequencyHacking (loginTimes : String → List Int)
    (authorizedUsers : List String) (userID : String) : Bool :=
  if authorizedUsers.contains userID then false
  else
    let seq := loginTimes userID
    if 3 < seq.length then
      let i := seq.length - 1
      if seq.getD i 0 - seq.getD (i - 3) 0 ≤ 20 then true else false
    else false

/-- Embedding of `loginTime`: convert "month day time" with `toSeconds`
(default year 2021) and append the result to the user's sequence,
creating the sequence when absent (the map is modelled as a total
function defaulting to the empty list). -/
def loginTime (month day time userID : String)
    (loginTimes : String → List Int) : String → List Int :=
  let timeStamp := month ++ " " ++ day ++ " " ++ time
  let seconds := toSeconds timeStamp 2021
  fun u => if u = userID then loginTimes u ++ [seconds] else loginTimes u

/-- Per-line outcome of the processor. -/
inductive DetectionResult where
  | NotFlagged
  | FlaggedBannedIP
  | FlaggedFrequency
deriving DecidableEq, Repr

/-- The loop state of `processLogs`: the reused string variables, the
two counters, and the per-user login history. -/
structure ProcState where
  fields : Fields
  lineCount : Nat
  hackCount : Nat
  loginTimes : String → List Int

/-- One iteration of the `processLogs` loop: extract fields, apply the
banned-IP rule, otherwise record the login and apply the frequency
rule; the line counter always advances. -/
def processLine (bannedIPs authorizedUsers : List String)
    (s : ProcState) (line : String) : ProcState × DetectionResult :=
  let f := parseFields s.fields line
  if bannedIPs.contains f.ip then
    ({ fields := f, lineCount := s.lineCount + 1, hackCount := s.hackCount + 1,
       loginTimes := s.loginTimes }, DetectionResult.FlaggedBannedIP)
  else
    let lt := loginTime f.month f.day f.time f.userID s.loginTimes
    if frequencyHacking lt authorizedUsers f.userID then
      ({ fields := f, lineCount := s.lineCount + 1, hackCount := s.hackCount + 1,
         loginTimes := lt }, DetectionResult.FlaggedFrequency)
    else
      ({ fields := f, lineCount := s.lineCount + 1, hackCount := s.hackCount,
         loginTimes := lt }, DetectionResult.NotFlagged)

/-- Run the processor loop from a given state, collecting the per-line
outcomes in order. -/
def processLogsFrom (bannedIPs authorizedUsers : List String)
    (s : ProcState) : List String → ProcState × List DetectionResult
  | [] => (s, [])
  | line :: rest =>
    let sr := processLine bannedIPs authorizedUsers s line
    let fin := processLogsFrom bannedIPs authorizedUsers sr.1 rest
    (fin.1, sr.2 :: fin.2)

/-- Initial state of `processLogs`: empty strings, zero counters,
empty login history. -/
def initState : ProcState :=
  { fields := {}, lineCount := 0, hackCount := 0, loginTimes := fun _ => [] }

/-- Embedding of `processLogs` on a finite list of input lines. -/
def processLogs (bannedIPs authorizedUsers : List String)
    (ls : List String) : ProcState × List DetectionResult :=
  processLogsFrom bannedIPs authorizedUsers initState ls

/-- Index of the first occurrence of a pattern in a character list,
with the semantics of `std::string::find`. -/
def findSub (l pat : List Char) : Option Nat :=
  match l with
  | [] => if pat.isEmpty then some 0 else none
  | c :: tl =>
    if pat.isPrefixOf (c :: tl) then some 0
    else (findSub tl pat).map (· + 1)

/-- Embedding of `breakDownURL`.  `none` models the uncaught
`std::out_of_range` thrown by `substr`: when the URL lacks "//",
`find` yields `npos` and `npos + 2` wraps to 1 (so the URL is NOT
rejected, its first character is merely dropped); when the part after
"//" has no '/', `hostName.substr(hostName.find('/'))` is `substr(npos)`
and throws. -/
def breakDownURL (url : String) : Option (String × String × String) :=
  let u := url.data
  let start : Nat :=
    match findSub u ['/', '/'] with
    | some i => i + 2
    | none => 1
  if start ≤ u.length then
    let hostName := u.drop start
    let colon := findSub hostName [':']
    let port : List Char :=
      match colon with
      | some e =>
        let p := hostName.drop (e + 1)
        match findSub p ['/'] with
        | some j => p.take j
        | none => p
      | none => String.data "80"
    let endPos : Option Nat :=
      match colon with
      | some e => some e
      | none => findSub hostName ['/']
    match findSub hostName ['/'] with
    | none => none
    | some pth =>
      let path := hostName.drop pth
      let host : List Char :=
        match endPos with
        | some e => hostName.take e
        | none => hostName
      some (String.mk host, String.mk port, String.mk path)
  else none

/-- The connection and request that `setupDownload` establishes. -/
structure Conn where
  host : String
  port : String
  request : String
deriving DecidableEq, Repr

/-- Embedding of `setupDownload(hostName, path, data, port)`: connect
to `hostName:port` and send the GET request.  In the C++ the `port`
parameter has default value "80". -/
def setupDownload (hostName path port : String) : Conn :=
  { host := hostName, port := port,
    request := "GET " ++ path ++ " HTTP/1.1\r\nHost: " ++ hostName ++
      "\r\nConnection: Close\r\n\r\n" }

/-- The connection `main` opens for a URL: `main` destructures the
triple from `breakDownURL` but calls `setupDownload(host, path, is)`,
letting the port parameter take its default "80"; `none` models the
uncaught exception path. -/
def mainConnect (url : String) : Option Conn :=
  match breakDownURL url with
  | none => none
  | some (host, _prt, path) => some (setupDownload host path "80")

/-- A broken-down time denoting a real calendar date and time of day
of the given year (months zero-based, no leap seconds). -/
def validTm (leap : Bool) (t : Tm) : Prop :=
  t.mon < 12 ∧ 1 ≤ t.mday ∧ t.mday ≤ monthLen leap t.mon ∧
    t.hour ≤ 23 ∧ t.min ≤ 59 ∧ t.sec ≤ 59

instance (leap : Bool) (t : Tm) : Decidable (validTm leap t) := by
  unfold validTm; infer_instance

/-- Chronological (lexicographic) order on broken-down times of one
year. -/
def tmLt (a b : Tm) : Prop :=
  a.mon < b.mon ∨ (a.mon = b.mon ∧
    (a.mday < b.mday ∨ (a.mday = b.mday ∧
      (a.hour < b.hour ∨ (a.hour = b.hour ∧
        (a.min < b.min ∨ (a.min = b.min ∧ a.sec < b.sec)))))))

instance (a b : Tm) : Decidable (tmLt a b) := by
  unfold tmLt; infer_instance

/-- C1: for a user not in the authorized set, `frequencyHacking`
reports a violation exactly when the user's sequence has more than 3
entries and the last entry minus the entry 3 positions before it is at
most 20; in particular, with exactly the 4 ordinals t0, t1, t2, t3
recorded, a violation is reported exactly when t3 - t0 ≤ 20. -/
theorem frequencyHacking_iff_recent4_span (lt : String → List Int)
    (auth : List String) (u : String) (h : u ∉ auth) :
    (frequencyHacking lt auth u = true ↔
      (3 < (lt u).length ∧
        (lt u).getD ((lt u).length - 1) 0 - (lt u).getD ((lt u).length - 1 - 3) 0 ≤ 20))
    ∧ ∀ t0 t1 t2 t3 : Int, lt u = [t0, t1, t2, t3] →
        (frequencyHacking lt auth u = true ↔ t3 - t0 ≤ 20) := by
  have main : frequencyHacking lt auth u = true ↔
      (3 < (lt u).length ∧
        (lt u).getD ((lt u).length - 1) 0 - (lt u).getD ((lt u).length - 1 - 3) 0 ≤ 20) := by
    have hne : ¬(auth.contains u = true) := by simpa using h
    simp only [frequencyHacking]
    rw [if_neg hne]
    split
    · next hlen =>
      split
      · next hle => exact iff_of_true rfl ⟨hlen, hle⟩
      · next hle => exact iff_of_false (by simp) (fun hx => hle hx.2)
    · next hlen => exact iff_of_false (by simp) (fun hx => hlen hx.1)
  refine ⟨main, fun t0 t1 t2 t3 hseq => ?_⟩
  rw [main, hseq]
  norm_num [List.getD]

/-- Witness for C1: user "bob", not authorized, logins at ordinals
0, 5, 10, 18: span 18 ≤ 20, so the violation is reported. -/
theorem frequencyHacking_iff_recent4_span_witness :
    "bob" ∉ (["alice"] : List String) ∧
    frequencyHacking (fun u => if u = "bob" then [0, 5, 10, 18] else []) ["alice"] "bob" = true := by
  refine ⟨by decide, ?_⟩
  exact ((frequencyHacking_iff_recent4_span
    (fun u => if u = "bob" then [0, 5, 10, 18] else []) ["alice"] "bob"
    (by decide)).2 0 5 10 18 (by decide)).mpr (by decide)

/-- C3: for a user in the authorized set, `frequencyHacking` returns
false regardless of the recorded login history. -/
theorem authorized_never_frequency_flagged (lt : String → List Int)
    (auth : List String) (u : String) (h : u ∈ auth) :
    frequencyHacking lt auth u = false := by
  simp [frequencyHacking, h]

/-- Witness for C3: authorized "bob" with five logins in the same
second is not flagged. -/
theorem authorized_never_frequency_flagged_witness :
    "bob" ∈ (["bob"] : List String) ∧
    frequencyHacking (fun _ => [0, 0, 0, 0, 0]) ["bob"] "bob" = false :=
  ⟨by decide, authorized_never_frequency_flagged (fun _ => [0, 0, 0, 0, 0]) ["bob"] "bob" (by decide)⟩

/-- C2: a line whose extracted IP is banned is flagged as
FlaggedBannedIP, increments the hack count, leaves every user's login
sequence unchanged, and is not flagged by the frequency rule. -/
theorem bannedIP_line_flags_and_skips_history (banned auth : List String)
    (s : ProcState) (line : String)
    (h : (parseFields s.fields line).ip ∈ banned) :
    (processLine banned auth s line).2 = DetectionResult.FlaggedBannedIP ∧
    (processLine banned auth s line).1.hackCount = s.hackCount + 1 ∧
    (processLine banned auth s line).1.loginTimes = s.loginTimes ∧
    (processLine banned auth s line).2 ≠ DetectionResult.FlaggedFrequency := by
  simp [processLine, h]

/-- Witness for C2: a full 11-field line from banned IP 10.0.0.5. -/
theorem bannedIP_line_flags_and_skips_history_witness :
    (parseFields initState.fields "Jun 10 03:32:36 host sshd pid a b mallory from 10.0.0.5").ip
      ∈ (["10.0.0.5"] : List String) ∧
    (processLine ["10.0.0.5"] [] initState "Jun 10 03:32:36 host sshd pid a b mallory from 10.0.0.5").2
      = DetectionResult.FlaggedBannedIP ∧
    (processLine ["10.0.0.5"] [] initState "Jun 10 03:32:36 host sshd pid a b mallory from 10.0.0.5").1.loginTimes
      = initState.loginTimes := by
  have h : (parseFields initState.fields "Jun 10 03:32:36 host sshd pid a b mallory from 10.0.0.5").ip
      ∈ (["10.0.0.5"] : List String) := by
    decide
  have k := bannedIP_line_flags_and_skips_history ["10.0.0.5"] [] initState
    "Jun 10 03:32:36 host sshd pid a b mallory from 10.0.0.5" h
  exact ⟨h, k.1, k.2.2.1⟩

/-- The line counter advances by one on every line, whatever the
outcome. -/
lemma processLine_lineCount (banned auth : List String) (s : ProcState) (line : String) :
    (processLine banned auth s line).1.lineCount = s.lineCount + 1 := by
  simp only [processLine]
  split
  · rfl
  · split
    · rfl
    · rfl

/-- The hack counter advances exactly on flagged lines. -/
lemma processLine_hackCount (banned auth : List String) (s : ProcState) (line : String) :
    (processLine banned auth s line).1.hackCount
      = s.hackCount
        + (if (processLine banned auth s line).2 = DetectionResult.FlaggedBannedIP then 1 else 0)
        + (if (processLine banned auth s line).2 = DetectionResult.FlaggedFrequency then 1 else 0) := by
  simp only [processLine]
  split
  · simp
  · split
    · simp
    · simp

/-- Counting invariant of the processor loop, for any start state. -/
lemma processLogsFrom_counts (banned auth : List String) (ls : List String) :
    ∀ s : ProcState,
      (processLogsFrom banned auth s ls).1.lineCount = s.lineCount + ls.length ∧
      (processLogsFrom banned auth s ls).1.hackCount
        = s.hackCount
          + (processLogsFrom banned auth s ls).2.count DetectionResult.FlaggedBannedIP
          + (processLogsFrom banned auth s ls).2.count DetectionResult.FlaggedFrequency := by
  induction ls with
  | nil => intro s; simp [processLogsFrom]
  | cons line rest ih =>
    intro s
    have hline := processLine_lineCount banned auth s line
    have hhack := processLine_hackCount banned auth s line
    have hrest := ih (processLine banned auth s line).1
    simp only [processLogsFrom, List.count_cons, List.length_cons, beq_iff_eq]
    constructor
    · omega
    · rcases hrest with ⟨-, h2⟩
      rw [h2, hhack]
      by_cases hB : (processLine banned auth s line).2 = DetectionResult.FlaggedBannedIP
      · by_cases hF : (processLine banned auth s line).2 = DetectionResult.FlaggedFrequency
        · rw [hB] at hF; cases hF
        · simp [hB, hF]; omega
      · by_cases hF : (processLine banned auth s line).2 = DetectionResult.FlaggedFrequency
        · simp [hB, hF]; omega
        · simp [hB, hF]

/-- C4: for every finite input stream, the final line count equals the
number of lines consumed, and the final hack count equals the number
of banned-IP flags plus the number of frequency flags. -/
theorem runSummary_counts (banned auth : List String) (ls : List String) :
    (processLogs banned auth ls).1.lineCount = ls.length ∧
    (processLogs banned auth ls).1.hackCount
      = (processLogs banned auth ls).2.count DetectionResult.FlaggedBannedIP
        + (processLogs banned auth ls).2.count DetectionResult.FlaggedFrequency := by
  have h := processLogsFrom_counts banned auth ls initState
  simpa [processLogs, initState] using h

/-- Reading past the end of a list yields the supplied fallback. -/
lemma getD_len_le {α : Type} (l : List α) (n : Nat) (d : α) (h : l.length ≤ n) :
    l.getD n d = d := by
  induction l generalizing n with
  | nil => simp [List.getD]
  | cons a t ih =>
    cases n with
    | zero => simp at h
    | succ m => simpa using ih m (by simpa using h)

/-- Counterexample to C5: after a line from banned IP 10.0.0.5, the
malformed 3-field line "Jun 10 03:32:37" is ALSO flagged by the
banned-IP rule, because the `ip` variable still holds "10.0.0.5" from
the previous line; the claim says a malformed line has its missing
fields read as empty strings and is not flagged. -/
theorem malformed_line_flagged_cex :
    (words "Jun 10 03:32:37").length < 11 ∧
    (processLogs ["10.0.0.5"] []
      ["Jun 10 03:32:36 host sshd pid a b mallory from 10.0.0.5", "Jun 10 03:32:37"]).2
      = [DetectionResult.FlaggedBannedIP, DetectionResult.FlaggedBannedIP] :=
  ⟨by decide, by decide⟩

/-- C5 as amended: the per-line parse never aborts the run (the line
counter always advances), but a missing field is not read as the empty
string: it retains the value extracted for that position on an earlier
line, and is empty only when no earlier line supplied that position
(e.g. on the first line); detection is then applied to these retained
fields. -/
theorem malformed_line_stale_fields (prev : Fields) (line : String)
    (banned auth : List String) (s : ProcState)
    (h : (words line).length ≤ 10) :
    (parseFields prev line).ip = prev.ip ∧
    (parseFields ({} : Fields) line).ip = "" ∧
    (processLine banned auth s line).1.lineCount = s.lineCount + 1 := by
  refine ⟨?_, ?_, processLine_lineCount banned auth s line⟩
  · show (words line).getD 10 prev.ip = prev.ip
    exact getD_len_le _ _ _ (by omega)
  · show (words line).getD 10 "" = ""
    exact getD_len_le _ _ _ (by omega)

/-- Witness for the amended C5: the 3-field line keeps the previously
extracted IP. -/
theorem malformed_line_stale_fields_witness :
    (words "Jun 10 03:32:37").length ≤ 10 ∧
    (parseFields { ip := "10.0.0.5" } "Jun 10 03:32:37").ip = "10.0.0.5" :=
  ⟨by decide,
    (malformed_line_stale_fields { ip := "10.0.0.5" } "Jun 10 03:32:37" [] [] initState
      (by decide)).1⟩

/-- A month ends no later than any later month begins. -/
lemma monthOff_add_len_le (leap : Bool) :
    ∀ m1, m1 < 12 → ∀ m2, m2 < 12 → m1 < m2 →
      monthOff leap m1 + monthLen leap m1 ≤ monthOff leap m2 := by
  cases leap <;> decide

/-- Seconds into the year are strictly monotone in chronological order
of valid broken-down times. -/
lemma secondsIntoYearG_lt (leap : Bool) (a b : Tm)
    (va : validTm leap a) (vb : validTm leap b) (hlt : tmLt a b) :
    secondsIntoYearG leap a < secondsIntoYearG leap b := by
  obtain ⟨am, amd1, amdL, ah, ami, asec⟩ := va
  obtain ⟨bm, bmd1, bmdL, bh, bmi, bsec⟩ := vb
  unfold secondsIntoYearG
  rcases hlt with hm | ⟨hm, hd | ⟨hd, hh | ⟨hh, hmi | ⟨hmi, hs⟩⟩⟩⟩
  · have key := monthOff_add_len_le leap a.mon am b.mon bm hm
    omega
  · rw [hm]
    omega
  · rw [hm, hd]
    omega
  · rw [hm, hd, hh]
    omega
  · rw [hm, hd, hh, hmi]
    omega

/-- A successful full parse determines the `tm` that `toSeconds`
converts. -/
lemma strptimeRun_of_parse {s : String} {t : Tm}
    (h : parseTimestampFull s = some t) : (strptimeRun s).1 = t := by
  simp only [parseTimestampFull] at h
  split at h
  · exact Option.some.inj h
  · cases h

/-- C6: for two timestamps that fully parse and denote real dates of
the assumed year 2021, chronological order gives strictly increasing
ordinals, ordinal differences equal calendar differences in seconds
exactly, and in particular "Jun 10 03:32:36" maps strictly below
"Jun 10 03:32:40" with difference exactly 4. -/
theorem toSeconds_strictMono_and_exact (s1 s2 : String) (t1 t2 : Tm)
    (h1 : parseTimestampFull s1 = some t1) (h2 : parseTimestampFull s2 = some t2)
    (v1 : validTm (isLeap 2021) t1) (v2 : validTm (isLeap 2021) t2)
    (hlt : tmLt t1 t2) :
    toSeconds s1 2021 < toSeconds s2 2021 ∧
    toSeconds s2 2021 - toSeconds s1 2021
      = secondsIntoYearG (isLeap 2021) t2 - secondsIntoYearG (isLeap 2021) t1 ∧
    toSeconds "Jun 10 03:32:36" 2021 < toSeconds "Jun 10 03:32:40" 2021 ∧
    toSeconds "Jun 10 03:32:40" 2021 - toSeconds "Jun 10 03:32:36" 2021 = 4 := by
  have e1 : (strptimeRun s1).1 = t1 := strptimeRun_of_parse h1
  have e2 : (strptimeRun s2).1 = t2 := strptimeRun_of_parse h2
  have key := secondsIntoYearG_lt (isLeap 2021) t1 t2 v1 v2 hlt
  refine ⟨?_, ?_, by decide, by decide⟩
  · unfold toSeconds mktimeModel
    rw [e1, e2]
    omega
  · unfold toSeconds mktimeModel
    rw [e1, e2]
    ring

/-- Witness for C6 at the spec's example pair. -/
theorem toSeconds_strictMono_and_exact_witness :
    parseTimestampFull "Jun 10 03:32:36"
      = some { mon := 5, mday := 10, hour := 3, min := 32, sec := 36 } ∧
    toSeconds "Jun 10 03:32:36" 2021 < toSeconds "Jun 10 03:32:40" 2021 :=
  ⟨by decide,
    (toSeconds_strictMono_and_exact "Jun 10 03:32:36" "Jun 10 03:32:40"
      { mon := 5, mday := 10, hour := 3, min := 32, sec := 36 }
      { mon := 5, mday := 10, hour := 3, min := 32, sec := 40 }
      (by decide) (by decide) (by decide) (by decide) (by decide)).1⟩

/-- C7: on a URL whose host part has no '/' the splitter does NOT
return the default path "/": `hostName.substr(hostName.find('/'))` is
`substr(npos)` and throws `std::out_of_range` (modelled by `none`);
URLs that do carry a path are split as the spec's examples state. -/
theorem breakDownURL_no_path_throws :
    breakDownURL "http://host.example.com" = none ∧
    breakDownURL "http://host.example.com:8080/logs/a.txt"
      = some ("host.example.com", "8080", "/logs/a.txt") ∧
    breakDownURL "http://host.example.com/a.txt"
      = some ("host.example.com", "80", "/a.txt") :=
  ⟨by decide, by decide, by decide⟩

/-- Counterexample to C8: the URL "example.com/log.txt" contains no
"//", yet the program does not abort: `find` returns `npos`, `npos + 2`
wraps to 1, the first character is dropped, and `main` proceeds to open
a connection for host "xample.com". -/
theorem url_without_scheme_proceeds_cex :
    findSub ("example.com/log.txt").data ['/', '/'] = none ∧
    mainConnect "example.com/log.txt" = some (setupDownload "xample.com" "/log.txt" "80") :=
  ⟨by decide, by decide⟩

/-- C8 as amended: a URL without "//" is not detected as malformed and
is not a fatal error; since `npos + 2` wraps to 1, the resolver drops
the URL's first character, splits the remainder, and the program
proceeds to set up the download (on port "80"), provided the remainder
still contains a '/' (otherwise the `substr(npos)` throw of C7 applies,
and for the empty URL `substr(1)` throws). -/
theorem url_without_scheme_proceeds (url : String)
    (h1 : findSub url.data ['/', '/'] = none)
    (h2 : 1 ≤ url.data.length)
    (h3 : findSub (url.data.drop 1) ['/'] ≠ none) :
    ∃ c : Conn, mainConnect url = some c ∧ c.port = "80" := by
  obtain ⟨p, hp⟩ : ∃ p, findSub (url.data.drop 1) ['/'] = some p := by
    cases hf : findSub (url.data.drop 1) ['/'] with
    | none => exact absurd hf h3
    | some p => exact ⟨p, rfl⟩
  simp only [mainConnect, breakDownURL, h1]
  rw [if_pos h2]
  cases hc : findSub (url.data.drop 1) [':'] with
  | none =>
    simp only [hc, hp]
    exact ⟨_, rfl, rfl⟩
  | some e =>
    simp only [hc, hp]
    exact ⟨_, rfl, rfl⟩

/-- Witness for the amended C8. -/
theorem url_without_scheme_proceeds_witness :
    findSub ("example.com/log.txt").data ['/', '/'] = none ∧
    ∃ c : Conn, mainConnect "example.com/log.txt" = some c ∧ c.port = "80" :=
  ⟨by decide,
    url_without_scheme_proceeds "example.com/log.txt" (by decide) (by decide) (by decide)⟩

/-- Counterexample to C9: "Jun garbage" does not parse against the
timestamp grammar, yet `toSeconds` returns the ordinary ordinal of
May 31 2021 00:00:00 (month parsed, the rest left zero-initialized, and
`mktime` normalizes day 0), indistinguishable from a valid timestamp's
ordinal and distinct from the `mktime` error value -1. -/
theorem unparseable_timestamp_ordinary_ordinal_cex :
    parseTimestampFull "Jun garbage" = none ∧
    parseTimestampFull "May 31 00:00:00" = some { mon := 4, mday := 31 } ∧
    toSeconds "Jun garbage" 2021 = toSeconds "May 31 00:00:00" 2021 ∧
    toSeconds "Jun garbage" 2021 ≠ -1 :=
  ⟨by decide, by decide, by decide, by decide⟩

/-- C9 as amended: the conversion never fails and never returns a
distinguished sentinel: whatever the input, the fields parsed before
the first failure (all zero in the worst case) are converted to an
ordinary ordinal, which is always at least the ordinal of
Dec 31 2020 00:00:00 and in particular never `mktime`'s error value -1. -/
theorem toSeconds_total_no_sentinel (s : String) :
    toSeconds s 2021 ≠ -1 ∧ 1609372800 ≤ toSeconds s 2021 := by
  have hd : (daysToYear 2021 : Int) = 18628 := by decide
  have hb : 1609372800 ≤ toSeconds s 2021 := by
    unfold toSeconds mktimeModel secondsIntoYearG
    rw [hd]
    omega
  exact ⟨by omega, hb⟩

/-- C10: whatever port the URL carries, `main` calls `setupDownload`
with only the host and the path, so the connection is opened on the
default port "80". -/
theorem connect_port_always_default (url host prt path : String)
    (h : breakDownURL url = some (host, prt, path)) :
    mainConnect url = some (setupDownload host path "80") ∧
    (setupDownload host path "80").port = "80" := by
  constructor
  · unfold mainConnect
    rw [h]
  · rfl

/-- Witness for C10: the URL names port 8080, the connection uses 80. -/
theorem connect_port_always_default_witness :
    breakDownURL "http://host.example.com:8080/logs/a.txt"
      = some ("host.example.com", "8080", "/logs/a.txt") ∧
    mainConnect "http://host.example.com:8080/logs/a.txt"
      = some (setupDownload "host.example.com" "/logs/a.txt" "80") :=
  ⟨by decide,
    (connect_port_always_default "http://host.example.com:8080/logs/a.txt"
      "host.example.com" "8080" "/logs/a.txt" (by decide)).1⟩
